import Mathlib

/-!
gnark: hint names, the test helper `Assert.compile`, small-field circuits and the
sparse `E6` arithmetic of the emulated BW6-761 pairing.

A shallow embedding of the parts of the repository the statements below are about:
the definitions come first, the theorems after them.
-/

namespace Gnark

/-! ## Hint name normalization (`constraint/solver`) -/

namespace Solver

/-- The synthetic suffix that the compiler gives an anonymous hint: `.init.func`. -/
def initFunc : List Char := ['.', 'i', 'n', 'i', 't', '.', 'f', 'u', 'n', 'c']

/-- The legacy placeholder the synthetic suffix is rewritten to: `.glob..func`. -/
def globFunc : List Char := ['.', 'g', 'l', 'o', 'b', '.', '.', 'f', 'u', 'n', 'c']

/-- Modelled from the spec: the body of `newToOldStyle` (only its test
`TestRegexpRename` is among the sources). On the characters of a name: when the
name ends in `.init.func` followed by one or more decimal digits, the `.init.func`
is rewritten to the placeholder `.glob..func`, the text before it and the digits
are kept; every other name is returned as it is. The name is scanned from its end:
`ds` is the trailing run of digits (reversed), `rest` what is before it (reversed). -/
def newToOldStyleChars (name : List Char) : List Char :=
  let r := name.reverse
  let ds := r.takeWhile Char.isDigit
  let rest := r.dropWhile Char.isDigit
  if ds ≠ [] ∧ rest.take initFunc.length = initFunc.reverse then
    (rest.drop initFunc.length).reverse ++ globFunc ++ ds.reverse
  else
    name

/-- Modelled from the spec: `newToOldStyle` (its definition is not among the
sources, its test is), the normalization of a hint name to the legacy form. -/
def newToOldStyle (name : String) : String :=
  String.mk (newToOldStyleChars name.data)

/-- A name matches the synthetic-suffix pattern when it is some text, then
`.init.func`, then a non-empty run of decimal digits, and nothing after. -/
def MatchesSynthetic (name : String) : Prop :=
  ∃ (pre digits : List Char), digits ≠ [] ∧ (∀ c ∈ digits, c.isDigit = true) ∧
    name.data = pre ++ initFunc ++ digits

end Solver

/-! ## Rank-1 compilation and witness solving (`frontend`, `constraint`) -/

namespace Frontend

/-- Modelled from the spec: the role of a variable (the `frontend` and `constraint`
packages are not among the sources): public input, secret input or internal. -/
inductive Role where
  | Public
  | Secret
  | Internal
deriving DecidableEq, Repr

/-- Modelled from the spec: a linear expression, an ordered sequence of
(coefficient mod p, variable-id) pairs plus a constant term. -/
structure LinExpr (p : ℕ) where
  terms : List (ZMod p × ℕ)
  const : ZMod p

/-- Modelled from the spec: a rank-1 constraint, a triple of linear expressions
`(L, R, O)` read as `L(w) * R(w) = O(w)`. -/
structure R1C (p : ℕ) where
  L : LinExpr p
  R : LinExpr p
  O : LinExpr p

/-- Modelled from the spec: the compiled constraint system in rank-1 form: the role
map (its length is the variable count, ids are dense and zero-based) and the ordered
constraints. Hint bindings are left out: no circuit below calls a hint. -/
structure ConstraintSystem (p : ℕ) where
  roles : List Role
  constraints : List (R1C p)

/-- Modelled from the spec: the failures of the Solver. -/
inductive SolveError where
  | MissingInput (id : ℕ)
  | UnderdeterminedSystem (id : ℕ)
  | ConstraintViolated (index : ℕ)
  | UnknownHint (name : String)
  | HintArityMismatch (name : String)
  | HintExecutionFailed (name : String)
deriving DecidableEq, Repr

deriving instance DecidableEq for Except

/-- The expression that is the variable `v`. -/
def LinExpr.var {p : ℕ} (v : ℕ) : LinExpr p := ⟨[(1, v)], 0⟩

/-- The expression that is the constant `c`. -/
def LinExpr.constant {p : ℕ} (c : ZMod p) : LinExpr p := ⟨[], c⟩

/-- Modelled from the spec: `scale(expr, constant)`, reduced modulo p at once. -/
def LinExpr.scale {p : ℕ} (e : LinExpr p) (k : ZMod p) : LinExpr p :=
  ⟨e.terms.map (fun t => (k * t.1, t.2)), k * e.const⟩

/-- The coefficient of the variable `v` in `e` once the terms of `v` are merged (summed). -/
def LinExpr.coeff {p : ℕ} (e : LinExpr p) (v : ℕ) : ZMod p :=
  ((e.terms.filter (fun t => t.2 = v)).map (fun t => t.1)).sum

/-- Modelled from the spec: `asConstant(expr)`, the constant when the expression
reduces, after merging, to a bare constant. -/
def LinExpr.asConstant {p : ℕ} (e : LinExpr p) : Option (ZMod p) :=
  if e.terms.all (fun t => e.coeff t.2 = 0) then some e.const else none

/-- Modelled from the spec: the Rank-1 builder, the variables allocated so far and the
constraints emitted so far, both only ever appended to. -/
structure Builder (p : ℕ) where
  roles : List Role
  constraints : List (R1C p)

/-- Modelled from the spec: `allocate(role)`, the next dense zero-based id. -/
def Builder.allocate {p : ℕ} (b : Builder p) (r : Role) : LinExpr p × Builder p :=
  (LinExpr.var b.roles.length, { b with roles := b.roles ++ [r] })

/-- Modelled from the spec: multiplication in the Rank-1 backend. A multiplication of two
non-constant expressions emits exactly one `(L, R, O)` triple with a fresh internal
variable for `O`; a multiplication by a constant is a scaling and emits nothing. -/
def Builder.Mul {p : ℕ} (x y : LinExpr p) (b : Builder p) : LinExpr p × Builder p :=
  match x.asConstant, y.asConstant with
  | some k, _ => (y.scale k, b)
  | none, some k => (x.scale k, b)
  | none, none =>
    let ob := b.allocate Role.Internal
    (ob.1, { ob.2 with constraints := ob.2.constraints ++ [⟨x, y, ob.1⟩] })

/-- Modelled from the spec: assert-equal in the Rank-1 backend: the triple
`(x, 1, y)`, whose `O` is the already existing assertion target. -/
def Builder.AssertIsEqual {p : ℕ} (x y : LinExpr p) (b : Builder p) : Builder p :=
  { b with constraints := b.constraints ++ [⟨x, LinExpr.constant 1, y⟩] }

/-- The two operations of `frontend.API` that the circuits below call, over the
variables `V` and the builder state `σ`. -/
structure API (V σ : Type) where
  Mul : V → V → σ → V × σ
  AssertIsEqual : V → V → σ → σ

/-- The Rank-1 builder as an API. -/
def r1csAPI (p : ℕ) : API (LinExpr p) (Builder p) :=
  ⟨Builder.Mul, Builder.AssertIsEqual⟩

/-- An assignment under construction: the value of each variable id, when known. -/
abbrev Assignment (p : ℕ) := List (Option (ZMod p))

/-- The value of variable `v`, when known. -/
def Assignment.value {p : ℕ} (w : Assignment p) (v : ℕ) : Option (ZMod p) :=
  w.getD v none

/-- The variables of `e` with a non-zero merged coefficient that have no value yet. -/
def LinExpr.unknownVars {p : ℕ} (e : LinExpr p) (w : Assignment p) : List ℕ :=
  (e.terms.filter (fun t => decide (e.coeff t.2 ≠ 0) && (w.value t.2).isNone)).map
    (fun t => t.2)

/-- The constant of `e` plus its terms over variables that have a value. -/
def LinExpr.evalKnown {p : ℕ} (e : LinExpr p) (w : Assignment p) : ZMod p :=
  e.const + (e.terms.map (fun t => match w.value t.2 with
    | some x => t.1 * x
    | none => 0)).sum

/-- The unknown variables of the three expressions of a constraint. -/
def R1C.unknownVars {p : ℕ} (c : R1C p) (w : Assignment p) : List ℕ :=
  c.L.unknownVars w ++ c.R.unknownVars w ++ c.O.unknownVars w

/-- The constraint is fully known under `w` and `L(w) * R(w) = O(w)`. -/
def R1C.holds {p : ℕ} (c : R1C p) (w : Assignment p) : Bool :=
  (c.unknownVars w).isEmpty && decide (c.L.evalKnown w * c.R.evalKnown w = c.O.evalKnown w)

/-- Modelled from the spec: step 1 of the Solver on one rank-1 triple. When the three
expressions are fully known, `L * R = O` is verified, a mismatch is
`ConstraintViolated`. When exactly one variable `x` is unknown and the constraint is
linear in it with a non-zero coefficient, `x` is solved for: with `a`, `b`, `c` the
coefficients of `x` in `L`, `R`, `O` and `l`, `r`, `o` the known parts, the constraint
reads `(l + a x) (r + b x) = o + c x`. Anything else is deferred. -/
def R1C.step {p : ℕ} (c : R1C p) (index : ℕ) (w : Assignment p) :
    Except SolveError (Assignment p) :=
  match c.unknownVars w with
  | [] =>
    if c.L.evalKnown w * c.R.evalKnown w = c.O.evalKnown w then Except.ok w
    else Except.error (SolveError.ConstraintViolated index)
  | x :: rest =>
    if rest.all (fun y => y = x) then
      let l := c.L.evalKnown w
      let r := c.R.evalKnown w
      let o := c.O.evalKnown w
      let k := c.L.coeff x * r + c.R.coeff x * l - c.O.coeff x
      if c.L.coeff x * c.R.coeff x = 0 ∧ k ≠ 0 then
        Except.ok (w.set x (some ((o - l * r) * k⁻¹)))
      else Except.ok w
    else Except.ok w

/-- Modelled from the spec: one scan of the constraints in their compiled order. -/
def scan {p : ℕ} : List (R1C p) → ℕ → Assignment p → Except SolveError (Assignment p)
  | [], _, w => Except.ok w
  | c :: rest, index, w =>
    match c.step index w with
    | Except.error e => Except.error e
    | Except.ok w1 => scan rest (index + 1) w1

/-- Modelled from the spec: step 4 of the Solver, every constraint is evaluated once
more against the completed assignment; the first one that fails is reported. -/
def revalidate {p : ℕ} : List (R1C p) → ℕ → Assignment p → Except SolveError (Assignment p)
  | [], _, w => Except.ok w
  | c :: rest, index, w =>
    if c.holds w then revalidate rest (index + 1) w
    else Except.error (SolveError.ConstraintViolated index)

/-- The first variable without a value, were there one. -/
def firstUnresolved {p : ℕ} (w : Assignment p) : ℕ :=
  w.findIdx (fun v => v.isNone)

/-- The number of variables without a value. -/
def unresolved {p : ℕ} (w : Assignment p) : ℕ :=
  (w.filter (fun v => v.isNone)).length

/-- Modelled from the spec: steps 3 and 4 of the Solver. Scans are repeated until every
variable has a value (then every constraint is validated again) or a full scan
resolves no new variable (`UnderdeterminedSystem`, naming the first unresolved
variable). Each further scan follows one that resolved a variable, so a fuel of
one more than the number of variables is never used up. -/
def solveLoop {p : ℕ} (cs : List (R1C p)) : ℕ → Assignment p → Except SolveError (Assignment p)
  | 0, w => Except.error (SolveError.UnderdeterminedSystem (firstUnresolved w))
  | fuel + 1, w =>
    match scan cs 0 w with
    | Except.error e => Except.error e
    | Except.ok w1 =>
      if w1.all (fun v => v.isSome) then revalidate cs 0 w1
      else if unresolved w1 = unresolved w then
        Except.error (SolveError.UnderdeterminedSystem (firstUnresolved w1))
      else solveLoop cs fuel w1

/-- Modelled from the spec: the initial assignment, seeded with the public and the
secret input values in the order of the variable ids. A declared input without a
value is `MissingInput`; surplus values are ignored. -/
def seed {p : ℕ} : List Role → List (ZMod p) → List (ZMod p) → ℕ →
    Except SolveError (Assignment p)
  | [], _, _, _ => Except.ok []
  | Role.Public :: _, [], _, i => Except.error (SolveError.MissingInput i)
  | Role.Public :: rs, x :: pub, sec, i =>
    match seed rs pub sec (i + 1) with
    | Except.error e => Except.error e
    | Except.ok w => Except.ok (some x :: w)
  | Role.Secret :: _, _, [], i => Except.error (SolveError.MissingInput i)
  | Role.Secret :: rs, pub, x :: sec, i =>
    match seed rs pub sec (i + 1) with
    | Except.error e => Except.error e
    | Except.ok w => Except.ok (some x :: w)
  | Role.Internal :: rs, pub, sec, i =>
    match seed rs pub sec (i + 1) with
    | Except.error e => Except.error e
    | Except.ok w => Except.ok (none :: w)

/-- Modelled from the spec: the Solver entry point
`solve(constraintSystem, publicInputs, secretInputs)`. -/
def solve {p : ℕ} (cs : ConstraintSystem p) (pub sec : List (ZMod p)) :
    Except SolveError (Assignment p) :=
  match seed cs.roles pub sec 0 with
  | Except.error e => Except.error e
  | Except.ok w => solveLoop cs.constraints (cs.roles.length + 1) w

/-- Every constraint of the system holds under the assignment `w`. -/
def ConstraintSystem.SatisfiedBy {p : ℕ} (cs : ConstraintSystem p) (w : Assignment p) : Prop :=
  ∀ c ∈ cs.constraints, c.holds w = true

/-- Modelled from the spec: a constraint in gate form, the coefficients
`(qL, qR, qO, qM, qC)` and three wire references, read as
`qL·L + qR·R + qO·O + qM·L·R + qC = 0`. A wire slot that is not used has zero
coefficients. -/
structure Gate (p : ℕ) where
  qL : ZMod p
  qR : ZMod p
  qO : ZMod p
  qM : ZMod p
  qC : ZMod p
  L : ℕ
  R : ℕ
  O : ℕ

/-- Modelled from the spec: a constraint, in one of the two representations. -/
inductive Constraint (p : ℕ) where
  | rank1 (c : R1C p)
  | gate (g : Gate p)

/-- Modelled from the spec: a hint binding, the hint name with its ordered input
and output wire ids. -/
structure HintBinding where
  name : String
  inputs : List ℕ
  outputs : List ℕ
deriving DecidableEq, Repr

/-- Modelled from the spec: what `registerHint(name, inputCount, outputCount, callback)`
records for a name; a callback that fails returns `none`. -/
structure Hint (p : ℕ) where
  inputCount : ℕ
  outputCount : ℕ
  callback : List (ZMod p) → Option (List (ZMod p))

/-- Modelled from the spec: the Hint Registry, a table from canonical hint names to
callbacks. -/
abbrev HintRegistry (p : ℕ) := List (String × Hint p)

/-- Modelled from the spec: `registerHint`, under the canonical form of the name. -/
def registerHint {p : ℕ} (reg : HintRegistry p) (name : String) (inputCount outputCount : ℕ)
    (callback : List (ZMod p) → Option (List (ZMod p))) : HintRegistry p :=
  (Solver.newToOldStyle name, ⟨inputCount, outputCount, callback⟩) :: reg

/-- Modelled from the spec: `invokeHint(name, inputs)`. The hint is looked up by its
canonical name, an unregistered one is `UnknownHint`; lengths that disagree with the
registration are `HintArityMismatch`; a failure of the callback is
`HintExecutionFailed`. -/
def invokeHint {p : ℕ} (reg : HintRegistry p) (name : String) (inputs : List (ZMod p)) :
    Except SolveError (List (ZMod p)) :=
  match reg.lookup (Solver.newToOldStyle name) with
  | none => Except.error (SolveError.UnknownHint name)
  | some h =>
    if inputs.length ≠ h.inputCount then Except.error (SolveError.HintArityMismatch name)
    else
      match h.callback inputs with
      | none => Except.error (SolveError.HintExecutionFailed name)
      | some outputs =>
        if outputs.length ≠ h.outputCount then
          Except.error (SolveError.HintArityMismatch name)
        else Except.ok outputs

/-- Modelled from the spec: the compiled constraint system, over either
representation: the role map (its length is the variable count), the ordered
constraints and the hint bindings. -/
structure CompiledSystem (p : ℕ) where
  roles : List Role
  constraints : List (Constraint p)
  hints : List HintBinding

/-- The value of a wire, `0` while it is unknown. -/
def Assignment.known {p : ℕ} (w : Assignment p) (v : ℕ) : ZMod p :=
  match w.value v with
  | some x => x
  | none => 0

/-- The wires of a gate that have no value yet and that the gate depends on. -/
def Gate.unknownVars {p : ℕ} (g : Gate p) (w : Assignment p) : List ℕ :=
  (if (g.qL ≠ 0 ∨ g.qM ≠ 0) ∧ (w.value g.L).isNone = true then [g.L] else []) ++
  (if (g.qR ≠ 0 ∨ g.qM ≠ 0) ∧ (w.value g.R).isNone = true then [g.R] else []) ++
  (if g.qO ≠ 0 ∧ (w.value g.O).isNone = true then [g.O] else [])

/-- The left-hand side `qL·L + qR·R + qO·O + qM·L·R + qC` over the known wires. -/
def Gate.residual {p : ℕ} (g : Gate p) (w : Assignment p) : ZMod p :=
  g.qL * w.known g.L + g.qR * w.known g.R + g.qO * w.known g.O
    + g.qM * w.known g.L * w.known g.R + g.qC

/-- The gate is fully known under `w` and its equation holds. -/
def Gate.holds {p : ℕ} (g : Gate p) (w : Assignment p) : Bool :=
  (g.unknownVars w).isEmpty && decide (g.residual w = 0)

/-- Modelled from the spec: step 1 of the Solver on one gate, the rule of the rank-1
triple applied to `qL·L + qR·R + qO·O + qM·L·R + qC = 0`: verified when fully known,
solved for its single unknown wire `x` when the equation is linear in `x` with a
non-zero coefficient `k`, deferred otherwise. -/
def Gate.step {p : ℕ} (g : Gate p) (index : ℕ) (w : Assignment p) :
    Except SolveError (Assignment p) :=
  match g.unknownVars w with
  | [] =>
    if g.residual w = 0 then Except.ok w
    else Except.error (SolveError.ConstraintViolated index)
  | x :: rest =>
    if rest.all (fun y => y = x) then
      let lx : ZMod p := if g.L = x then 1 else 0
      let rx : ZMod p := if g.R = x then 1 else 0
      let ox : ZMod p := if g.O = x then 1 else 0
      let k := g.qL * lx + g.qR * rx + g.qO * ox
        + g.qM * (lx * w.known g.R + rx * w.known g.L)
      if g.qM * lx * rx = 0 ∧ k ≠ 0 then
        Except.ok (w.set x (some (-(g.residual w) * k⁻¹)))
      else Except.ok w
    else Except.ok w

/-- Modelled from the spec: step 1 of the Solver on a constraint of either
representation. -/
def Constraint.step {p : ℕ} (c : Constraint p) (index : ℕ) (w : Assignment p) :
    Except SolveError (Assignment p) :=
  match c with
  | Constraint.rank1 r => r.step index w
  | Constraint.gate g => g.step index w

/-- Modelled from the spec: the re-evaluation of a constraint of either representation,
it is fully known under `w` and it holds. -/
def Constraint.holds {p : ℕ} (c : Constraint p) (w : Assignment p) : Bool :=
  match c with
  | Constraint.rank1 r => r.holds w
  | Constraint.gate g => g.holds w

/-- Modelled from the spec: one scan of the constraints in their compiled order. -/
def scanConstraints {p : ℕ} :
    List (Constraint p) → ℕ → Assignment p → Except SolveError (Assignment p)
  | [], _, w => Except.ok w
  | c :: rest, index, w =>
    match c.step index w with
    | Except.error e => Except.error e
    | Except.ok w1 => scanConstraints rest (index + 1) w1

/-- The values of the wires `vs`, when all of them are known. -/
def Assignment.values {p : ℕ} (w : Assignment p) : List ℕ → Option (List (ZMod p))
  | [] => some []
  | v :: vs =>
    match w.value v, Assignment.values w vs with
    | some x, some xs => some (x :: xs)
    | _, _ => none

/-- The assignment `w` with the wires `vs` bound to the values `ys`, in order. -/
def Assignment.bind {p : ℕ} (w : Assignment p) : List ℕ → List (ZMod p) → Assignment p
  | v :: vs, y :: ys => Assignment.bind (w.set v (some y)) vs ys
  | _, _ => w

/-- Modelled from the spec: step 2 of the Solver on one hint binding. An unregistered
hint is reported at once. A binding whose outputs have values is done; one whose
declared inputs are not all known is deferred; otherwise the hint is invoked and
the declared output wires are bound. -/
def runHint {p : ℕ} (reg : HintRegistry p) (h : HintBinding) (w : Assignment p) :
    Except SolveError (Assignment p) :=
  match reg.lookup (Solver.newToOldStyle h.name) with
  | none => Except.error (SolveError.UnknownHint h.name)
  | some _ =>
    if h.outputs.all (fun v => (w.value v).isSome) then Except.ok w
    else
      match w.values h.inputs with
      | none => Except.ok w
      | some xs =>
        match invokeHint reg h.name xs with
        | Except.error e => Except.error e
        | Except.ok ys =>
          if ys.length ≠ h.outputs.length then
            Except.error (SolveError.HintArityMismatch h.name)
          else Except.ok (w.bind h.outputs ys)

/-- Modelled from the spec: step 2 of the Solver over the hint bindings, in their
order. -/
def runHints {p : ℕ} (reg : HintRegistry p) :
    List HintBinding → Assignment p → Except SolveError (Assignment p)
  | [], w => Except.ok w
  | h :: rest, w =>
    match runHint reg h w with
    | Except.error e => Except.error e
    | Except.ok w1 => runHints reg rest w1

/-- Modelled from the spec: step 4 of the Solver over either representation, every
constraint is evaluated once more against the completed assignment. -/
def revalidateConstraints {p : ℕ} :
    List (Constraint p) → ℕ → Assignment p → Except SolveError (Assignment p)
  | [], _, w => Except.ok w
  | c :: rest, index, w =>
    if c.holds w then revalidateConstraints rest (index + 1) w
    else Except.error (SolveError.ConstraintViolated index)

/-- Modelled from the spec: steps 1 to 4 of the Solver with hints, over either
representation. A pass scans the constraints and then runs the hints whose inputs
are known; passes are repeated until every variable has a value (then every
constraint is validated again) or a pass resolves no new variable
(`UnderdeterminedSystem`). -/
def solveSystemLoop {p : ℕ} (reg : HintRegistry p) (sys : CompiledSystem p) :
    ℕ → Assignment p → Except SolveError (Assignment p)
  | 0, w => Except.error (SolveError.UnderdeterminedSystem (firstUnresolved w))
  | fuel + 1, w =>
    match scanConstraints sys.constraints 0 w with
    | Except.error e => Except.error e
    | Except.ok w1 =>
      match runHints reg sys.hints w1 with
      | Except.error e => Except.error e
      | Except.ok w2 =>
        if w2.all (fun v => v.isSome) then revalidateConstraints sys.constraints 0 w2
        else if unresolved w2 = unresolved w then
          Except.error (SolveError.UnderdeterminedSystem (firstUnresolved w2))
        else solveSystemLoop reg sys fuel w2

/-- Modelled from the spec: the Solver entry point for a constraint system of either
representation, with its hint registry. -/
def solveSystem {p : ℕ} (reg : HintRegistry p) (sys : CompiledSystem p)
    (pub sec : List (ZMod p)) : Except SolveError (Assignment p) :=
  match seed sys.roles pub sec 0 with
  | Except.error e => Except.error e
  | Except.ok w => solveSystemLoop reg sys (sys.roles.length + 1) w

/-- A rank-1 constraint system seen as a compiled system without hints. -/
def ConstraintSystem.toCompiled {p : ℕ} (cs : ConstraintSystem p) : CompiledSystem p :=
  ⟨cs.roles, cs.constraints.map Constraint.rank1, []⟩

/-- A hint over `ZMod 7` that returns a square root of its input, when there is one. -/
def sqrtHint7 : List (ZMod 7) → Option (List (ZMod 7))
  | [x] => (([0, 1, 2, 3] : List (ZMod 7)).find? (fun y => y * y = x)).map (fun y => [y])
  | _ => none

/-- A system over `ZMod 7` to run the Solver on: a public `x` and an internal `y` bound
to the hint `sqrt` of `x`, with `y * y = x` once as a rank-1 triple and once as the
gate `y·y - x = 0`. -/
def sqrtSystem : CompiledSystem 7 :=
  ⟨[Role.Public, Role.Internal],
   [Constraint.rank1 ⟨LinExpr.var 1, LinExpr.var 1, LinExpr.var 0⟩,
    Constraint.gate ⟨0, 0, -1, 1, 0, 1, 1, 0⟩],
   [⟨"pkg.init.func1", [0], [1]⟩]⟩

/-- The registry with the square-root hint, registered under its legacy name. -/
def sqrtRegistry : HintRegistry 7 :=
  registerHint [] "pkg.glob..func1" 1 1 sqrtHint7

end Frontend

/-! ## Circuits over small fields (`internal/smallfields`) -/

namespace Smallfields

open Frontend

/-- The circuit `NativeCircuit`: a public `A` and a secret `B`. -/
structure NativeCircuit (V : Type) where
  A : V
  B : V

/-- The method `NativeCircuit.Define`: `res := api.Mul(A, A)`, then
`api.AssertIsEqual(res, B)`; it returns no error. -/
def NativeCircuit.Define {V σ : Type} (circuit : NativeCircuit V) (api : API V σ) (s : σ) : σ :=
  let res := api.Mul circuit.A circuit.A s
  api.AssertIsEqual res.1 circuit.B res.2

/-- Modelled from the spec: the compilation of `NativeCircuit` in the Rank-1 backend
(`frontend.Compile` is not among the sources): the inputs are allocated in the order
of their declaration, `A` public and `B` secret, then `Define` runs on the builder. -/
def NativeCircuit.compile (p : ℕ) : ConstraintSystem p :=
  let b0 : Builder p := ⟨[], []⟩
  let a := b0.allocate Role.Public
  let b := a.2.allocate Role.Secret
  let s := NativeCircuit.Define ⟨a.1, b.1⟩ (r1csAPI p) b.2
  ⟨s.roles, s.constraints⟩

/-- The modulus of the Goldilocks field, 2^64 - 2^32 + 1. -/
def goldilocksModulus : ℕ := 18446744069414584321

end Smallfields

/-! ## The test helper `Assert.compile` (`test/assert.go`) -/

namespace Test

/-- Error values. The three sentinels are the package variables of `test/assert.go`;
`other` is any error made elsewhere (those `frontend.Compile` returns); `wrapf w v` is
`fmt.Errorf("%w: %v", w, v)`, an error that wraps `w` and shows `v`. -/
inductive GoError where
  | ErrCompilationNotDeterministic
  | ErrInvalidWitnessSolvedCS
  | ErrInvalidWitnessVerified
  | other (text : String)
  | wrapf (w v : GoError)
deriving DecidableEq, Repr

/-- The text of an error, `err.Error()`. -/
def GoError.Error : GoError → String
  | GoError.ErrCompilationNotDeterministic => "compilation is not deterministic"
  | GoError.ErrInvalidWitnessSolvedCS => "invalid witness solved the constraint system"
  | GoError.ErrInvalidWitnessVerified => "invalid witness resulted in a valid proof"
  | GoError.other text => text
  | GoError.wrapf w v => w.Error ++ ": " ++ v.Error

/-- The test `errors.Is(err, target)`: `err` is `target`, or wraps an error that is. -/
def GoError.Is : GoError → GoError → Bool
  | GoError.wrapf w v, target =>
    decide (GoError.wrapf w v = target) || GoError.Is w target
  | e, target => decide (e = target)

/-- The backend identifiers: the two that `Assert.compile` handles, and `UNKNOWN`
for every other value of `backend.ID`. -/
inductive BackendID where
  | UNKNOWN
  | GROTH16
  | PLONK
deriving DecidableEq, Repr

/-- The two builder constructors `r1cs.NewBuilder` and `scs.NewBuilder`. -/
inductive NewBuilder where
  | r1cs
  | scs
deriving DecidableEq, Repr

/-- What `Assert.compile` calls and is not among the sources: `curveID.ScalarField()`,
`frontend.Compile` and `reflect.DeepEqual`. `Compile` runs in a state `σ` (whatever a
compilation may depend on besides its arguments), so that two calls with the same
arguments need not return the same result. -/
structure Env (Circuit CurveID Opts CS σ : Type) where
  ScalarField : CurveID → ℕ
  Compile : ℕ → NewBuilder → Circuit → Opts → σ → Except GoError CS × σ
  DeepEqual : CS → CS → Bool

/-- The method `Assert.compile`. The result is `none` when the function panics (a
backend other than GROTH16 and PLONK), and else the returned pair — a constraint
system with a nil error, or nil with an error — and the state after the calls. -/
def Assert.compile {Circuit CurveID Opts CS σ : Type} (env : Env Circuit CurveID Opts CS σ)
    (circuit : Circuit) (curveID : CurveID) (backendID : BackendID) (compileOpts : Opts)
    (s : σ) : Option (Except GoError CS × σ) :=
  let newBuilder : Option NewBuilder :=
    match backendID with
    | BackendID.GROTH16 => some NewBuilder.r1cs
    | BackendID.PLONK => some NewBuilder.scs
    | BackendID.UNKNOWN => none
  match newBuilder with
  | none => none
  | some newBuilder =>
    match env.Compile (env.ScalarField curveID) newBuilder circuit compileOpts s with
    | (Except.error err, s1) => some (Except.error err, s1)
    | (Except.ok ccs, s1) =>
      match env.Compile (env.ScalarField curveID) newBuilder circuit compileOpts s1 with
      | (Except.error err, s2) =>
        some (Except.error (GoError.wrapf GoError.ErrCompilationNotDeterministic err), s2)
      | (Except.ok ccs2, s2) =>
        if !env.DeepEqual ccs ccs2 then
          some (Except.error GoError.ErrCompilationNotDeterministic, s2)
        else
          some (Except.ok ccs, s2)

/-- The builder `Assert.compile` selects for a backend it handles. -/
def builderOf : BackendID → NewBuilder
  | BackendID.PLONK => NewBuilder.scs
  | _ => NewBuilder.r1cs

/-- A compiler to try `Assert.compile` on. Its state counts the calls made so far and
its result depends on that count only: the call in state 0 fails; in state 1 it
succeeds and in state 2 fails; in states 3 and 4 it succeeds with different systems;
from state 5 on it returns the same system. Systems are numbers, compared by `==`. -/
def countingEnv : Env Unit Unit Unit ℕ ℕ where
  ScalarField := fun _ => 2013265921
  Compile := fun _ _ _ _ n =>
    (if n = 0 ∨ n = 2 then Except.error (GoError.other "compile failed")
     else if n = 4 then Except.ok 6
     else Except.ok 5, n + 1)
  DeepEqual := fun a b => a == b

end Test

/-! ## Sparse multiplications in `E6` (`std/algebra/emulated/fields_bw6761`) -/

namespace FieldsBW6761

/-- An element of `E6`, six coefficients over the base field: `Ai` is the coefficient
of `v^i`. -/
@[ext]
structure E6 (F : Type) where
  A0 : F
  A1 : F
  A2 : F
  A3 : F
  A4 : F
  A5 : F
deriving DecidableEq, Repr

/-- The product in `E6 = Fp[v]/(v^6 + 4)`: the coefficient of `v^k` collects the
`a_i b_j` with `i + j = k`, and those with `i + j = k + 6` times `v^6 = -4`. -/
def E6.mul {F : Type} [CommRing F] (a b : E6 F) : E6 F where
  A0 := a.A0 * b.A0 + -4 * (a.A1 * b.A5 + a.A2 * b.A4 + a.A3 * b.A3 + a.A4 * b.A2 + a.A5 * b.A1)
  A1 := a.A0 * b.A1 + a.A1 * b.A0 + -4 * (a.A2 * b.A5 + a.A3 * b.A4 + a.A4 * b.A3 + a.A5 * b.A2)
  A2 := a.A0 * b.A2 + a.A1 * b.A1 + a.A2 * b.A0 + -4 * (a.A3 * b.A5 + a.A4 * b.A4 + a.A5 * b.A3)
  A3 := a.A0 * b.A3 + a.A1 * b.A2 + a.A2 * b.A1 + a.A3 * b.A0 + -4 * (a.A4 * b.A5 + a.A5 * b.A4)
  A4 := a.A0 * b.A4 + a.A1 * b.A3 + a.A2 * b.A2 + a.A3 * b.A1 + a.A4 * b.A0 + -4 * (a.A5 * b.A5)
  A5 := a.A0 * b.A5 + a.A1 * b.A4 + a.A2 * b.A3 + a.A3 * b.A2 + a.A4 * b.A1 + a.A5 * b.A0

/-- The value of an element of `E6` at a root `v` of `v^6 + 4` in an `F`-algebra. -/
def E6.eval {F R : Type} [CommRing F] [CommRing R] [Algebra F R] (a : E6 F) (v : R) : R :=
  algebraMap F R a.A0 + algebraMap F R a.A1 * v + algebraMap F R a.A2 * v ^ 2
    + algebraMap F R a.A3 * v ^ 3 + algebraMap F R a.A4 * v ^ 4 + algebraMap F R a.A5 * v ^ 5

/-- The multi-term evaluation `fp.Eval(terms, coefs)` of the emulated field (the
package `std/math/emulated` is not among the sources): the sum over `i` of
`coefs[i]` times the product of `terms[i]`. -/
def Eval {F : Type} [CommRing F] (terms : List (List F)) (coefs : List ℤ) : F :=
  (List.zipWith (fun t c => (c : F) * t.prod) terms coefs).sum

/-- The method `Ext6.mulBy023Direct`: `z` times a sparse element 023, by schoolbook
multiplication. -/
def mulBy023Direct {F : Type} [CommRing F] (z : E6 F) (c0 c1 : F) : E6 F :=
  let nonResidue : F := -4
  -- z0 = a0c0 + β(a3 + a4c1)
  let z0 := Eval [[z.A0, c0], [nonResidue, z.A3], [nonResidue, z.A4, c1]] [1, 1, 1]
  -- z1 = a1c0 + β(a4 + a5c1)
  let z1 := Eval [[z.A1, c0], [nonResidue, z.A4], [nonResidue, z.A5, c1]] [1, 1, 1]
  -- z2 = a0c1 + a2c0 + β(a5)
  let z2 := Eval [[z.A0, c1], [z.A2, c0], [nonResidue, z.A5]] [1, 1, 1]
  -- c3 = a0 + a1c1 + a3c0
  let z3 := Eval [[z.A0], [z.A1, c1], [z.A3, c0]] [1, 1, 1]
  -- c4 = a1 + a2c1 + a4c0
  let z4 := Eval [[z.A1], [z.A2, c1], [z.A4, c0]] [1, 1, 1]
  -- c5 = a2 + a3c1 + a5c0
  let z5 := Eval [[z.A2], [z.A3, c1], [z.A5, c0]] [1, 1, 1]
  { A0 := z0, A1 := z1, A2 := z2, A3 := z3, A4 := z4, A5 := z5 }

/-- The method `Ext6.MulBy023`: multiplies `z` by an `E6` sparse element of the form
`E6{A0: c0, A1: 0, A2: c1, A3: 1, A4: 0, A5: 0}`. -/
def MulBy023 {F : Type} [CommRing F] (z : E6 F) (c0 c1 : F) : E6 F :=
  mulBy023Direct z c0 c1

/-- The method `Ext6.mul023by023Direct`: the product of two sparse elements 023, by
schoolbook multiplication; the result is the array `[z0, z2, z3, z4, z5]`. -/
def mul023by023Direct {F : Type} [CommRing F] (d0 d1 c0 c1 : F) : Fin 5 → F :=
  let nonResidue : F := -4
  -- c0 = d0c0 + β
  let z0 := Eval [[d0, c0], [nonResidue]] [1, 1]
  -- c2 = d0c1 + d1c0
  let z2 := Eval [[d0, c1], [d1, c0]] [1, 1]
  -- c3 = d0 + c0
  let z3 := d0 + c0
  -- c4 = d1c1
  let z4 := d1 * c1
  -- c5 = d1 + c1
  let z5 := d1 + c1
  ![z0, z2, z3, z4, z5]

/-- The method `Ext6.Mul023By023`: multiplies two `E6` sparse elements of the form
`E6{A0: c0, A1: 0, A2: c1, A3: 1, A4: 0, A5: 0}`. -/
def Mul023By023 {F : Type} [CommRing F] (d0 d1 c0 c1 : F) : Fin 5 → F :=
  mul023by023Direct d0 d1 c0 c1

/-- The method `Ext6.mulBy02345Direct`: `z` times a sparse element 02345, by schoolbook
multiplication. -/
def mulBy02345Direct {F : Type} [CommRing F] (z : E6 F) (x : Fin 5 → F) : E6 F :=
  let nonResidue : F := -4
  -- c0 = a0y0 + β(a1y4 + a2y3 + a3y2 + a4y1)
  let c0 := Eval [[z.A0, x 0], [nonResidue, z.A1, x 4], [nonResidue, z.A2, x 3],
    [nonResidue, z.A3, x 2], [nonResidue, z.A4, x 1]] [1, 1, 1, 1, 1]
  -- c1 = a1y0 + β(a2y4 + a3y3 + a4y2 + a5y1)
  let c1 := Eval [[z.A1, x 0], [nonResidue, z.A2, x 4], [nonResidue, z.A3, x 3],
    [nonResidue, z.A4, x 2], [nonResidue, z.A5, x 1]] [1, 1, 1, 1, 1]
  -- c2 = a0y1 + a2y0 + β(a3y4 + a4y3 + a5y2)
  let c2 := Eval [[z.A0, x 1], [z.A2, x 0], [nonResidue, z.A3, x 4],
    [nonResidue, z.A4, x 3], [nonResidue, z.A5, x 2]] [1, 1, 1, 1, 1]
  -- c3 = a0y2 + a1y1 + a3y0 + β(a4y4 + a5y3)
  let c3 := Eval [[z.A0, x 2], [z.A1, x 1], [z.A3, x 0],
    [nonResidue, z.A4, x 4], [nonResidue, z.A5, x 3]] [1, 1, 1, 1, 1]
  -- c4 = a0y3 + a1y2 + a2y1 + a4y0 + βa5y4
  let c4 := Eval [[z.A0, x 3], [z.A1, x 2], [z.A2, x 1], [z.A4, x 0],
    [nonResidue, z.A5, x 4]] [1, 1, 1, 1, 1]
  -- c5 = a0y4 + a1y3 + a2y2 + a3y1 + a5y0
  let c5 := Eval [[z.A0, x 4], [z.A1, x 3], [z.A2, x 2], [z.A3, x 1],
    [z.A5, x 0]] [1, 1, 1, 1, 1]
  { A0 := c0, A1 := c1, A2 := c2, A3 := c3, A4 := c4, A5 := c5 }

/-- The method `Ext6.MulBy02345`: multiplies `z` by an `E6` sparse element of the form
`E6{A0: y0, A1: 0, A2: y1, A3: y2, A4: y3, A5: y4}`. -/
def MulBy02345 {F : Type} [CommRing F] (z : E6 F) (x : Fin 5 → F) : E6 F :=
  mulBy02345Direct z x

/-- The methods of `Ext6` that the exponentiations call (they are in `e6.go`, which is
not among the sources), over the type `G` of the values they work on. -/
structure Ext6Ops (G : Type) where
  Reduce : G → G
  Copy : G → G
  Mul : G → G → G
  CyclotomicSquareGS : G → G
  CyclotomicSquareKarabina12345 : G → G
  DecompressKarabina12345 : G → G

/-- The loop of `nSquareKarabina12345`: `n` times `z = e.CyclotomicSquareKarabina12345(z)`. -/
def nSquareLoop {G : Type} (e : Ext6Ops G) : ℕ → G → G
  | 0, z => z
  | n + 1, z => nSquareLoop e n (e.CyclotomicSquareKarabina12345 z)

/-- The method `Ext6.nSquareKarabina12345`: `n` Karabina squarings, then the
decompression. -/
def nSquareKarabina12345 {G : Type} (e : Ext6Ops G) (z : G) (n : ℕ) : G :=
  let z := nSquareLoop e n z
  let z := e.DecompressKarabina12345 z
  z

/-- The method `Ext6.ExpX0Minus1`: sets `z` to `z^(x₀-1)` and returns it. -/
def ExpX0Minus1 {G : Type} (e : Ext6Ops G) (z : G) : G :=
  let z := e.Reduce z
  let result := e.Copy z
  let result := nSquareKarabina12345 e result 5
  let result := e.Mul result z
  let z33 := e.Copy result
  let result := nSquareKarabina12345 e result 7
  let result := e.Mul result z33
  let result := nSquareKarabina12345 e result 4
  let result := e.Mul result z
  let result := e.CyclotomicSquareGS result
  let result := e.Mul result z
  let result := nSquareKarabina12345 e result 46
  result

/-- The model of the methods under which the exponentiations are stated: both
squarings square, `Mul` multiplies, `Reduce`, `Copy` and the decompression keep the
value. -/
structure Ext6Ops.Exact {G : Type} [Monoid G] (e : Ext6Ops G) : Prop where
  reduce : ∀ x, e.Reduce x = x
  copy : ∀ x, e.Copy x = x
  mul : ∀ x y, e.Mul x y = x * y
  squareGS : ∀ x, e.CyclotomicSquareGS x = x * x
  squareKarabina : ∀ x, e.CyclotomicSquareKarabina12345 x = x * x
  decompress : ∀ x, e.DecompressKarabina12345 x = x

/-- The methods computed with the multiplication of a monoid `G`. -/
def monoidOps (G : Type) [Monoid G] : Ext6Ops G where
  Reduce := fun x => x
  Copy := fun x => x
  Mul := fun x y => x * y
  CyclotomicSquareGS := fun x => x * x
  CyclotomicSquareKarabina12345 := fun x => x * x
  DecompressKarabina12345 := fun x => x

/-- The method `Ext6.ExpX0Minus1Square`: sets `z` to `z^((x₀-1)²)` and returns it. -/
def ExpX0Minus1Square {G : Type} (e : Ext6Ops G) (z : G) : G :=
  let z := e.Reduce z
  let result := e.Copy z
  let result := nSquareKarabina12345 e result 3
  let t0 := e.CyclotomicSquareGS result
  let t2 := e.Mul z t0
  let result := e.Mul result t2
  let t0 := e.Mul z result
  let t1 := e.CyclotomicSquareGS t0
  let t1 := e.Mul t2 t1
  let t3 := nSquareKarabina12345 e t1 7
  let t2 := e.Mul t2 t3
  let t2 := nSquareKarabina12345 e t2 11
  let t1 := e.Mul t1 t2
  let t0 := e.Mul t0 t1
  let t0 := nSquareKarabina12345 e t0 7
  let result := e.Mul result t0
  let result := nSquareKarabina12345 e result 3
  let result := e.Mul z result
  let result := nSquareKarabina12345 e result 92
  result

/-- The method `Ext6.ExpX0Plus1`: sets `z` to `z^(x₀+1)` and returns it. -/
def ExpX0Plus1 {G : Type} (e : Ext6Ops G) (z : G) : G :=
  let z := e.Reduce z
  let result := e.Copy z
  let t := e.CyclotomicSquareGS result
  let result := nSquareKarabina12345 e t 4
  let result := e.Mul result z
  let z33 := e.Copy result
  let result := nSquareKarabina12345 e result 7
  let result := e.Mul result z33
  let result := nSquareKarabina12345 e result 4
  let result := e.Mul result z
  let result := e.CyclotomicSquareGS result
  let result := e.Mul result z
  let result := nSquareKarabina12345 e result 46
  let result := e.Mul result t
  result

/-- The method `Ext6.ExptMinus1Div3`: sets `z` to `z^((x₀-1)/3)` and returns it. -/
def ExptMinus1Div3 {G : Type} (e : Ext6Ops G) (z : G) : G :=
  let z := e.Reduce z
  let result := e.Copy z
  let result := e.CyclotomicSquareGS result
  let result := e.CyclotomicSquareGS result
  let result := e.Mul result z
  let result := e.CyclotomicSquareGS result
  let result := e.Mul result z
  let t0 := nSquareKarabina12345 e result 7
  let result := e.Mul result t0
  let result := nSquareKarabina12345 e result 5
  let result := e.Mul result z
  let result := nSquareKarabina12345 e result 46
  result

/-- The method `Ext6.ExpByU2`: sets `z` to `z^(x₀+1)` and returns it. -/
def ExpByU2 {G : Type} (e : Ext6Ops G) (z : G) : G :=
  let z := e.Reduce z
  let result := e.Copy z
  let t := e.CyclotomicSquareGS result
  let result := nSquareKarabina12345 e t 4
  let result := e.Mul result z
  let z33 := e.Copy result
  let result := nSquareKarabina12345 e result 7
  let result := e.Mul result z33
  let result := nSquareKarabina12345 e result 4
  let result := e.Mul result z
  let result := e.CyclotomicSquareGS result
  let result := e.Mul result z
  let result := nSquareKarabina12345 e result 46
  let result := e.Mul result t
  result

/-- The method `Ext6.ExpByU1`: sets `z` to `x^(x₀^3-x₀^2+1)` and returns it. -/
def ExpByU1 {G : Type} (e : Ext6Ops G) (x : G) : G :=
  let t5 := e.CyclotomicSquareGS x
  let z := e.Mul x t5
  let t0 := e.CyclotomicSquareGS z
  let t6 := e.Mul x t0
  let t8 := e.Mul x t6
  let t7 := e.Mul t5 t8
  let t9 := e.Mul t0 t8
  let t3 := e.Mul z t9
  let t2 := e.Mul x t3
  let t1 := e.Mul t6 t2
  let t0 := e.Mul t8 t1
  let t4 := e.CyclotomicSquareGS t0
  let t4 := e.Mul z t4
  let t8 := e.Mul t8 t4
  let t2 := e.Mul t2 t8
  let t9 := e.Mul t9 t2
  let t5 := e.Mul t5 t9
  let t10 := e.Mul t0 t9
  let t10 := nSquareKarabina12345 e t10 6
  let t9 := e.Mul t9 t10
  let t9 := nSquareKarabina12345 e t9 10
  let t8 := e.Mul t8 t9
  let t8 := nSquareKarabina12345 e t8 10
  let t8 := e.Mul t5 t8
  let t7 := e.Mul t7 t8
  let t7 := nSquareKarabina12345 e t7 4
  let t6 := e.Mul t6 t7
  let t6 := nSquareKarabina12345 e t6 11
  let t5 := e.Mul t5 t6
  let t5 := nSquareKarabina12345 e t5 3
  let t5 := e.Mul z t5
  let t5 := nSquareKarabina12345 e t5 17
  let t4 := e.Mul t4 t5
  let t4 := nSquareKarabina12345 e t4 7
  let t3 := e.Mul t3 t4
  let t3 := nSquareKarabina12345 e t3 11
  let t2 := e.Mul t2 t3
  let t2 := nSquareKarabina12345 e t2 7
  let t1 := e.Mul t1 t2
  let t1 := nSquareKarabina12345 e t1 3
  let t1 := e.Mul x t1
  let t1 := nSquareKarabina12345 e t1 35
  let t1 := e.Mul t0 t1
  let t1 := nSquareKarabina12345 e t1 7
  let t0 := e.Mul t0 t1
  let t0 := nSquareKarabina12345 e t0 5
  let z := e.Mul z t0
  let z := nSquareKarabina12345 e z 46
  let z := e.Mul x z
  z

end FieldsBW6761

end Gnark

/-! # Theorems -/

namespace Gnark

namespace Solver

theorem takeWhile_append_stop {α : Type} (p : α → Bool) (l : List α) (a : α) (m : List α)
    (hl : ∀ c ∈ l, p c = true) (ha : p a = false) :
    (l ++ a :: m).takeWhile p = l := by
  induction l with
  | nil => simp [List.takeWhile, ha]
  | cons x xs ih =>
    have hx : p x = true := hl x (List.mem_cons_self x xs)
    have hxs : ∀ c ∈ xs, p c = true := fun c hc => hl c (List.mem_cons_of_mem x hc)
    simp [List.takeWhile, hx, ih hxs]

theorem dropWhile_append_stop {α : Type} (p : α → Bool) (l : List α) (a : α) (m : List α)
    (hl : ∀ c ∈ l, p c = true) (ha : p a = false) :
    (l ++ a :: m).dropWhile p = a :: m := by
  induction l with
  | nil => simp [List.dropWhile, ha]
  | cons x xs ih =>
    have hx : p x = true := hl x (List.mem_cons_self x xs)
    have hxs : ∀ c ∈ xs, p c = true := fun c hc => hl c (List.mem_cons_of_mem x hc)
    simp [List.dropWhile, hx, ih hxs]

/-- The scan of `newToOldStyleChars` on a name made of `pre`, a marker that is
`mark` and then the letter `c`, and digits: the trailing digits are found, and what
is left is the reversed marker on the reversed prefix. -/
theorem scan_digits (pre mark digits : List Char)
    (hd : ∀ c ∈ digits, c.isDigit = true) :
    ((pre ++ (mark ++ ['c']) ++ digits).reverse.takeWhile Char.isDigit = digits.reverse) ∧
    ((pre ++ (mark ++ ['c']) ++ digits).reverse.dropWhile Char.isDigit
      = 'c' :: (mark.reverse ++ pre.reverse)) := by
  have hrev : (pre ++ (mark ++ ['c']) ++ digits).reverse
      = digits.reverse ++ 'c' :: (mark.reverse ++ pre.reverse) := by simp
  have hd2 : ∀ c ∈ digits.reverse, c.isDigit = true := fun c hc => hd c (List.mem_reverse.mp hc)
  have hc : Char.isDigit 'c' = false := by decide
  rw [hrev]
  exact ⟨takeWhile_append_stop _ _ _ _ hd2 hc, dropWhile_append_stop _ _ _ _ hd2 hc⟩

theorem newToOldStyleChars_synthetic (pre digits : List Char) (hne : digits ≠ [])
    (hd : ∀ c ∈ digits, c.isDigit = true) :
    newToOldStyleChars (pre ++ initFunc ++ digits) = pre ++ globFunc ++ digits := by
  have h := scan_digits pre ['.', 'i', 'n', 'i', 't', '.', 'f', 'u', 'n'] digits hd
  have e : initFunc = ['.', 'i', 'n', 'i', 't', '.', 'f', 'u', 'n'] ++ ['c'] := rfl
  unfold newToOldStyleChars
  simp only [e]
  rw [h.1, h.2]
  simp [hne]

/-- A name whose scan succeeds is a prefix, `.init.func` and a non-empty run of digits. -/
theorem scan_success_shape (name : List Char)
    (h : name.reverse.takeWhile Char.isDigit ≠ [] ∧
      (name.reverse.dropWhile Char.isDigit).take initFunc.length = initFunc.reverse) :
    ∃ (pre digits : List Char), digits ≠ [] ∧ (∀ c ∈ digits, c.isDigit = true) ∧
      name = pre ++ initFunc ++ digits := by
  refine ⟨((name.reverse.dropWhile Char.isDigit).drop initFunc.length).reverse,
    (name.reverse.takeWhile Char.isDigit).reverse, ?_, ?_, ?_⟩
  · intro hnil
    exact h.1 (List.reverse_eq_nil_iff.mp hnil)
  · intro c hc
    exact List.mem_takeWhile_imp (List.mem_reverse.mp hc)
  · have h1 : name.reverse = name.reverse.takeWhile Char.isDigit
        ++ name.reverse.dropWhile Char.isDigit :=
      (List.takeWhile_append_dropWhile Char.isDigit name.reverse).symm
    have h2 : name.reverse.dropWhile Char.isDigit
        = initFunc.reverse ++ (name.reverse.dropWhile Char.isDigit).drop initFunc.length := by
      conv_lhs => rw [← List.take_append_drop initFunc.length
        (name.reverse.dropWhile Char.isDigit)]
      rw [h.2]
    have h3 : name = (name.reverse.takeWhile Char.isDigit
        ++ name.reverse.dropWhile Char.isDigit).reverse := by
      rw [← h1, List.reverse_reverse]
    conv_lhs => rw [h3, h2]
    simp

/-- A name that does not match the pattern is returned as it is. -/
theorem newToOldStyleChars_other (name : List Char)
    (h : ¬ ∃ (pre digits : List Char), digits ≠ [] ∧ (∀ c ∈ digits, c.isDigit = true) ∧
      name = pre ++ initFunc ++ digits) :
    newToOldStyleChars name = name := by
  unfold newToOldStyleChars
  simp only []
  split
  · next hc => exact absurd (scan_success_shape name hc) h
  · rfl

/-- A name already in the legacy form is returned as it is. -/
theorem newToOldStyleChars_canonical (pre digits : List Char)
    (hd : ∀ c ∈ digits, c.isDigit = true) :
    newToOldStyleChars (pre ++ globFunc ++ digits) = pre ++ globFunc ++ digits := by
  have h := scan_digits pre ['.', 'g', 'l', 'o', 'b', '.', '.', 'f', 'u', 'n'] digits hd
  have e : globFunc = ['.', 'g', 'l', 'o', 'b', '.', '.', 'f', 'u', 'n'] ++ ['c'] := rfl
  unfold newToOldStyleChars
  simp only [e]
  rw [h.1, h.2]
  simp [initFunc]

theorem newToOldStyleChars_idem (name : List Char) :
    newToOldStyleChars (newToOldStyleChars name) = newToOldStyleChars name := by
  by_cases h : ∃ (pre digits : List Char), digits ≠ [] ∧ (∀ c ∈ digits, c.isDigit = true) ∧
      name = pre ++ initFunc ++ digits
  · obtain ⟨pre, digits, hne, hd, rfl⟩ := h
    rw [newToOldStyleChars_synthetic pre digits hne hd]
    exact newToOldStyleChars_canonical pre digits hd
  · rw [newToOldStyleChars_other name h, newToOldStyleChars_other name h]

theorem matchesSynthetic_iff (name : String) :
    MatchesSynthetic name ↔
      (name.data.reverse.takeWhile Char.isDigit ≠ [] ∧
        (name.data.reverse.dropWhile Char.isDigit).take initFunc.length = initFunc.reverse) := by
  constructor
  · rintro ⟨pre, digits, hne, hd, hname⟩
    have h := scan_digits pre ['.', 'i', 'n', 'i', 't', '.', 'f', 'u', 'n'] digits hd
    have e : initFunc = ['.', 'i', 'n', 'i', 't', '.', 'f', 'u', 'n'] ++ ['c'] := rfl
    rw [hname]
    simp only [e]
    rw [h.1, h.2]
    simp [hne]
  · intro h
    exact scan_success_shape name.data h

/-- C1: every name of the form `<prefix>.init.func<digits>` (one digit at least) is
normalized by `newToOldStyle` to `<prefix>.glob..func<digits>`, prefix and digits
unchanged; the name of the regression test `issue1045.init.func1` becomes
`issue1045.glob..func1`. -/
theorem C1_newToOldStyle_new_style (pre digits : String)
    (hne : digits.data ≠ []) (hd : ∀ c ∈ digits.data, c.isDigit = true) :
    newToOldStyle (pre ++ ".init.func" ++ digits) = pre ++ ".glob..func" ++ digits ∧
    newToOldStyle "github.com/arithmic/gnark/internal/regression_tests/issue1045.init.func1"
      = "github.com/arithmic/gnark/internal/regression_tests/issue1045.glob..func1" := by
  refine ⟨?_, by decide⟩
  have h := newToOldStyleChars_synthetic pre.data digits.data hne hd
  have e1 : (pre ++ ".init.func" ++ digits).data = pre.data ++ initFunc ++ digits.data := by
    simp [String.data_append, initFunc]
  have e2 : (pre ++ ".glob..func" ++ digits).data = pre.data ++ globFunc ++ digits.data := by
    simp [String.data_append, globFunc]
  unfold newToOldStyle
  rw [e1, h, ← e2]

theorem C1_newToOldStyle_new_style_witness :
    newToOldStyle ("pkg/hints" ++ ".init.func" ++ "42") = "pkg/hints" ++ ".glob..func" ++ "42" ∧
    newToOldStyle "github.com/arithmic/gnark/internal/regression_tests/issue1045.init.func1"
      = "github.com/arithmic/gnark/internal/regression_tests/issue1045.glob..func1" :=
  C1_newToOldStyle_new_style "pkg/hints" "42" (by decide) (by decide)

/-- C2: a name that does not match the synthetic-suffix pattern is returned unchanged by
`newToOldStyle`; so are the explicit name `issue1045.ExplicitHint` and the old-style
name `issue1045.glob..func1` of the regression test. -/
theorem C2_newToOldStyle_other_unchanged (name : String) (h : ¬ MatchesSynthetic name) :
    newToOldStyle name = name ∧
    newToOldStyle "github.com/arithmic/gnark/internal/regression_tests/issue1045.ExplicitHint"
      = "github.com/arithmic/gnark/internal/regression_tests/issue1045.ExplicitHint" ∧
    newToOldStyle "github.com/arithmic/gnark/internal/regression_tests/issue1045.glob..func1"
      = "github.com/arithmic/gnark/internal/regression_tests/issue1045.glob..func1" := by
  refine ⟨?_, by decide, by decide⟩
  unfold newToOldStyle
  rw [newToOldStyleChars_other name.data h]

theorem C2_newToOldStyle_other_unchanged_witness :
    ¬ MatchesSynthetic "github.com/arithmic/gnark/internal/regression_tests/issue1045.ExplicitHint" ∧
    (newToOldStyle "github.com/arithmic/gnark/internal/regression_tests/issue1045.ExplicitHint"
      = "github.com/arithmic/gnark/internal/regression_tests/issue1045.ExplicitHint" ∧
    newToOldStyle "github.com/arithmic/gnark/internal/regression_tests/issue1045.ExplicitHint"
      = "github.com/arithmic/gnark/internal/regression_tests/issue1045.ExplicitHint" ∧
    newToOldStyle "github.com/arithmic/gnark/internal/regression_tests/issue1045.glob..func1"
      = "github.com/arithmic/gnark/internal/regression_tests/issue1045.glob..func1") :=
  ⟨(matchesSynthetic_iff _).not.mpr (by decide),
   C2_newToOldStyle_other_unchanged _ ((matchesSynthetic_iff _).not.mpr (by decide))⟩

/-- C3: hint name normalization is idempotent: for every string `name`,
`newToOldStyle (newToOldStyle name) = newToOldStyle name`. -/
theorem C3_newToOldStyle_idempotent (name : String) :
    newToOldStyle (newToOldStyle name) = newToOldStyle name := by
  unfold newToOldStyle
  rw [newToOldStyleChars_idem]

end Solver

end Gnark

namespace Gnark

namespace Smallfields

open Frontend

/-- In every `ZMod p` the inverse of `-1` is `-1`. -/
theorem neg_one_inv (p : ℕ) : ((-1 : ZMod p))⁻¹ = -1 := by
  have h : ((-1 : ZMod p)) * ((-1 : ZMod p))⁻¹ = 1 :=
    ZMod.mul_inv_of_unit (-1) (isUnit_one.neg)
  calc ((-1 : ZMod p))⁻¹ = (-1) * ((-1) * ((-1 : ZMod p))⁻¹) := by ring
    _ = -1 := by rw [h]; ring

/-- The constraint system `NativeCircuit` compiles to: variables `A`, `B` and the product,
the triple of the multiplication and the triple of the assertion. -/
theorem compile_native (p : ℕ) (hp : 1 < p) :
    NativeCircuit.compile p = ⟨[Role.Public, Role.Secret, Role.Internal],
      [⟨LinExpr.var 0, LinExpr.var 0, LinExpr.var 2⟩, ⟨LinExpr.var 2, LinExpr.constant 1, LinExpr.var 1⟩]⟩ := by
  haveI : Fact (1 < p) := ⟨hp⟩
  simp [NativeCircuit.compile, NativeCircuit.Define, r1csAPI, Builder.Mul, Builder.AssertIsEqual,
    Builder.allocate, LinExpr.asConstant, LinExpr.var, LinExpr.coeff, LinExpr.constant]


theorem step_mul (p : ℕ) (hp : 1 < p) (A B : ZMod p) :
    R1C.step (⟨LinExpr.var 0, LinExpr.var 0, LinExpr.var 2⟩ : R1C p) 0 [some A, some B, none]
      = Except.ok [some A, some B, some (A * A)] := by
  haveI : Fact (1 < p) := ⟨hp⟩
  simp [-Prod.mk_one_one, R1C.step, R1C.unknownVars, LinExpr.unknownVars, LinExpr.var, LinExpr.coeff,
    Assignment.value, LinExpr.evalKnown, neg_one_inv]

theorem step_assert (p : ℕ) (hp : 1 < p) (A B : ZMod p) :
    R1C.step (⟨LinExpr.var 2, LinExpr.constant 1, LinExpr.var 1⟩ : R1C p) 1
        [some A, some B, some (A * A)]
      = if A * A = B then Except.ok [some A, some B, some (A * A)]
        else Except.error (SolveError.ConstraintViolated 1) := by
  haveI : Fact (1 < p) := ⟨hp⟩
  simp [-Prod.mk_one_one, R1C.step, R1C.unknownVars, LinExpr.unknownVars, LinExpr.var, LinExpr.coeff,
    LinExpr.constant, Assignment.value, LinExpr.evalKnown]

theorem holds_mul (p : ℕ) (hp : 1 < p) (A B r : ZMod p) :
    R1C.holds (⟨LinExpr.var 0, LinExpr.var 0, LinExpr.var 2⟩ : R1C p) [some A, some B, some r]
      = decide (A * A = r) := by
  haveI : Fact (1 < p) := ⟨hp⟩
  simp [-Prod.mk_one_one, R1C.holds, R1C.unknownVars, LinExpr.unknownVars, LinExpr.var, LinExpr.coeff,
    Assignment.value, LinExpr.evalKnown]

theorem holds_assert (p : ℕ) (hp : 1 < p) (A B r : ZMod p) :
    R1C.holds (⟨LinExpr.var 2, LinExpr.constant 1, LinExpr.var 1⟩ : R1C p)
        [some A, some B, some r]
      = decide (r = B) := by
  haveI : Fact (1 < p) := ⟨hp⟩
  simp [-Prod.mk_one_one, R1C.holds, R1C.unknownVars, LinExpr.unknownVars, LinExpr.var, LinExpr.coeff,
    LinExpr.constant, Assignment.value, LinExpr.evalKnown]

theorem solve_native (p : ℕ) (hp : 1 < p) (A B : ZMod p) :
    solve (NativeCircuit.compile p) [A] [B] =
      if A * A = B then Except.ok [some A, some B, some (A * A)]
      else Except.error (SolveError.ConstraintViolated 1) := by
  rw [compile_native p hp]
  simp only [solve, seed, solveLoop, scan, List.length, step_mul p hp, step_assert p hp]
  by_cases h : A * A = B
  · simp [h, revalidate, holds_mul p hp, holds_assert p hp]
  · simp [h]

/-- C4: over every prime field and for every assignment `(A, B)`, the constraints
emitted by `NativeCircuit.Define` (`res := Mul(A, A)`, `AssertIsEqual(res, B)`) are
satisfied if and only if `B = A * A` in the field, and the assignment is solved if
and only if `B = A * A`; `A = 2, B = 4` solves (also over Goldilocks, as in
`TestNativeCircuit`) and `A = 2, B = 5` is rejected as a violated constraint. -/
theorem C4_nativeCircuit_satisfied_iff (p : ℕ) (hp : p.Prime) (A B : ZMod p) :
    ((∃ r, (NativeCircuit.compile p).SatisfiedBy [some A, some B, some r]) ↔ B = A * A) ∧
    ((∃ w, solve (NativeCircuit.compile p) [A] [B] = Except.ok w) ↔ B = A * A) ∧
    (B ≠ A * A →
      solve (NativeCircuit.compile p) [A] [B] = Except.error (SolveError.ConstraintViolated 1)) ∧
    solve (NativeCircuit.compile p) [2] [4] = Except.ok [some 2, some 4, some 4] ∧
    solve (NativeCircuit.compile p) [2] [5] = Except.error (SolveError.ConstraintViolated 1) ∧
    solve (NativeCircuit.compile goldilocksModulus) [2] [4]
      = Except.ok [some 2, some 4, some 4] := by
  have h1 : 1 < p := hp.one_lt
  haveI : Fact (1 < p) := ⟨h1⟩
  have h45 : ¬ ((2 : ZMod p) * 2 = 5) := by
    intro h
    have e : (1 : ZMod p) = 5 - 2 * 2 := by ring
    rw [h, sub_self] at e
    exact one_ne_zero e
  refine ⟨?_, ?_, ?_, ?_, ?_, ?_⟩
  · unfold ConstraintSystem.SatisfiedBy
    rw [compile_native p h1]
    simp only [List.mem_cons, List.mem_singleton, List.not_mem_nil, or_false, forall_eq_or_imp,
      forall_eq, holds_mul p h1, holds_assert p h1, decide_eq_true_eq]
    constructor
    · rintro ⟨r, hr1, hr2⟩
      rw [← hr2, hr1]
    · intro h
      exact ⟨A * A, rfl, h.symm⟩
  · rw [solve_native p h1]
    by_cases h : A * A = B
    · simp [h]
    · have h2 : ¬ B = A * A := fun e => h e.symm
      simp [h, h2]
  · intro h
    rw [solve_native p h1, if_neg (fun e : A * A = B => h e.symm)]
  · rw [solve_native p h1]
    norm_num
  · rw [solve_native p h1, if_neg h45]
  · rw [solve_native goldilocksModulus (by decide)]
    norm_num

theorem C4_nativeCircuit_satisfied_iff_witness :
    ((∃ r, (NativeCircuit.compile 65537).SatisfiedBy [some 2, some 4, some r])
      ↔ (4 : ZMod 65537) = 2 * 2) ∧
    ((∃ w, solve (NativeCircuit.compile 65537) [2] [4] = Except.ok w)
      ↔ (4 : ZMod 65537) = 2 * 2) ∧
    ((4 : ZMod 65537) ≠ 2 * 2 →
      solve (NativeCircuit.compile 65537) [2] [4]
        = Except.error (SolveError.ConstraintViolated 1)) ∧
    solve (NativeCircuit.compile 65537) [2] [4] = Except.ok [some 2, some 4, some 4] ∧
    solve (NativeCircuit.compile 65537) [2] [5] = Except.error (SolveError.ConstraintViolated 1) ∧
    solve (NativeCircuit.compile goldilocksModulus) [2] [4]
      = Except.ok [some 2, some 4, some 4] :=
  C4_nativeCircuit_satisfied_iff 65537 (by norm_num) 2 4

end Smallfields

end Gnark

namespace Gnark

namespace Test

/-- What the self-check of `Assert.compile` rests on: when the result of `Compile` does
not depend on the state it runs in and `DeepEqual` holds between a system and itself,
`Assert.compile` returns what the first compilation returned, so it never reports
`ErrCompilationNotDeterministic` unless the compiler did. -/
theorem assert_compile_of_state_independent {Circuit CurveID Opts CS σ : Type}
    (env : Env Circuit CurveID Opts CS σ) (circuit : Circuit) (curveID : CurveID)
    (backendID : BackendID) (compileOpts : Opts) (s : σ)
    (hb : backendID = BackendID.GROTH16 ∨ backendID = BackendID.PLONK)
    (hdet : ∀ f nb c o s1 s2, (env.Compile f nb c o s1).1 = (env.Compile f nb c o s2).1)
    (hrefl : ∀ x, env.DeepEqual x x = true) :
    ∃ s2, Assert.compile env circuit curveID backendID compileOpts s
      = some ((env.Compile (env.ScalarField curveID) (builderOf backendID) circuit
          compileOpts s).1, s2) := by
  cases h1 : env.Compile (env.ScalarField curveID) (builderOf backendID) circuit compileOpts s
    with
  | mk r1 s1 =>
    cases h2 : env.Compile (env.ScalarField curveID) (builderOf backendID) circuit
        compileOpts s1 with
    | mk r2 s2 =>
      have h12 : r1 = r2 := by
        have h := hdet (env.ScalarField curveID) (builderOf backendID) circuit compileOpts s s1
        rw [h1, h2] at h
        exact h
      subst h12
      rcases hb with rfl | rfl
      · simp only [builderOf] at h1 h2
        cases r1 with
        | error err => exact ⟨s1, by simp [Assert.compile, h1]⟩
        | ok ccs => exact ⟨s2, by simp [Assert.compile, h1, h2, hrefl]⟩
      · simp only [builderOf] at h1 h2
        cases r1 with
        | error err => exact ⟨s1, by simp [Assert.compile, h1]⟩
        | ok ccs => exact ⟨s2, by simp [Assert.compile, h1, h2, hrefl]⟩

/-- C5: for backend GROTH16 or PLONK, `Assert.compile` compiles the circuit twice with
the same arguments (field of the curve, the builder of the backend, circuit, options)
and returns: the error of the first compilation unchanged when that one fails; an
error wrapping `ErrCompilationNotDeterministic` when the first succeeds and the
second fails; `ErrCompilationNotDeterministic` when both succeed with results that are
not deeply equal; and else the first constraint system, with a nil error. -/
theorem C5_assert_compile_cases {Circuit CurveID Opts CS σ : Type}
    (env : Env Circuit CurveID Opts CS σ) (circuit : Circuit) (curveID : CurveID)
    (backendID : BackendID) (compileOpts : Opts) (s : σ)
    (hb : backendID = BackendID.GROTH16 ∨ backendID = BackendID.PLONK) :
    (∀ err s1,
      env.Compile (env.ScalarField curveID) (builderOf backendID) circuit compileOpts s
        = (Except.error err, s1) →
      Assert.compile env circuit curveID backendID compileOpts s
        = some (Except.error err, s1)) ∧
    (∀ ccs s1 err s2,
      env.Compile (env.ScalarField curveID) (builderOf backendID) circuit compileOpts s
        = (Except.ok ccs, s1) →
      env.Compile (env.ScalarField curveID) (builderOf backendID) circuit compileOpts s1
        = (Except.error err, s2) →
      Assert.compile env circuit curveID backendID compileOpts s
        = some (Except.error (GoError.wrapf GoError.ErrCompilationNotDeterministic err), s2) ∧
      (GoError.wrapf GoError.ErrCompilationNotDeterministic err).Is
        GoError.ErrCompilationNotDeterministic = true) ∧
    (∀ ccs s1 ccs2 s2,
      env.Compile (env.ScalarField curveID) (builderOf backendID) circuit compileOpts s
        = (Except.ok ccs, s1) →
      env.Compile (env.ScalarField curveID) (builderOf backendID) circuit compileOpts s1
        = (Except.ok ccs2, s2) →
      env.DeepEqual ccs ccs2 = false →
      Assert.compile env circuit curveID backendID compileOpts s
        = some (Except.error GoError.ErrCompilationNotDeterministic, s2)) ∧
    (∀ ccs s1 ccs2 s2,
      env.Compile (env.ScalarField curveID) (builderOf backendID) circuit compileOpts s
        = (Except.ok ccs, s1) →
      env.Compile (env.ScalarField curveID) (builderOf backendID) circuit compileOpts s1
        = (Except.ok ccs2, s2) →
      env.DeepEqual ccs ccs2 = true →
      Assert.compile env circuit curveID backendID compileOpts s
        = some (Except.ok ccs, s2)) := by
  rcases hb with rfl | rfl
  · refine ⟨?_, ?_, ?_, ?_⟩
    · intro err s1 h1
      simp only [builderOf] at h1
      simp [Assert.compile, h1]
    · intro ccs s1 err s2 h1 h2
      simp only [builderOf] at h1 h2
      simp [Assert.compile, h1, h2, GoError.Is]
    · intro ccs s1 ccs2 s2 h1 h2 hd
      simp only [builderOf] at h1 h2
      simp [Assert.compile, h1, h2, hd]
    · intro ccs s1 ccs2 s2 h1 h2 hd
      simp only [builderOf] at h1 h2
      simp [Assert.compile, h1, h2, hd]
  · refine ⟨?_, ?_, ?_, ?_⟩
    · intro err s1 h1
      simp only [builderOf] at h1
      simp [Assert.compile, h1]
    · intro ccs s1 err s2 h1 h2
      simp only [builderOf] at h1 h2
      simp [Assert.compile, h1, h2, GoError.Is]
    · intro ccs s1 ccs2 s2 h1 h2 hd
      simp only [builderOf] at h1 h2
      simp [Assert.compile, h1, h2, hd]
    · intro ccs s1 ccs2 s2 h1 h2 hd
      simp only [builderOf] at h1 h2
      simp [Assert.compile, h1, h2, hd]

theorem C5_assert_compile_cases_witness :
    Assert.compile countingEnv () () BackendID.GROTH16 () 0
      = some (Except.error (GoError.other "compile failed"), 1) ∧
    Assert.compile countingEnv () () BackendID.PLONK () 1
      = some (Except.error (GoError.wrapf GoError.ErrCompilationNotDeterministic
          (GoError.other "compile failed")), 3) ∧
    Assert.compile countingEnv () () BackendID.GROTH16 () 3
      = some (Except.error GoError.ErrCompilationNotDeterministic, 5) ∧
    Assert.compile countingEnv () () BackendID.PLONK () 5 = some (Except.ok 5, 7) :=
  ⟨(C5_assert_compile_cases countingEnv () () BackendID.GROTH16 () 0 (Or.inl rfl)).1
      (GoError.other "compile failed") 1 (by decide),
   ((C5_assert_compile_cases countingEnv () () BackendID.PLONK () 1 (Or.inr rfl)).2.1
      5 2 (GoError.other "compile failed") 3 (by decide) (by decide)).1,
   (C5_assert_compile_cases countingEnv () () BackendID.GROTH16 () 3 (Or.inl rfl)).2.2.1
      5 4 6 5 (by decide) (by decide) (by decide),
   (C5_assert_compile_cases countingEnv () () BackendID.PLONK () 5 (Or.inr rfl)).2.2.2
      5 6 5 7 (by decide) (by decide) (by decide)⟩

end Test

end Gnark

namespace Gnark

namespace FieldsBW6761

/-- The coefficient formulas of `E6.mul` are those of the product of polynomials in a
root of `v^6 + 4`: in every `F`-algebra and at every `v` with `v^6 + 4 = 0`, the
value of `E6.mul a b` is the product of the values of `a` and `b`. -/
theorem E6.eval_mul {F R : Type} [CommRing F] [CommRing R] [Algebra F R] (a b : E6 F) (v : R)
    (hv : v ^ 6 + 4 = 0) : (E6.mul a b).eval v = a.eval v * b.eval v := by
  simp only [E6.eval, E6.mul, map_add, map_mul, map_neg, map_ofNat]
  generalize algebraMap F R a.A0 = a0
  generalize algebraMap F R a.A1 = a1
  generalize algebraMap F R a.A2 = a2
  generalize algebraMap F R a.A3 = a3
  generalize algebraMap F R a.A4 = a4
  generalize algebraMap F R a.A5 = a5
  generalize algebraMap F R b.A0 = b0
  generalize algebraMap F R b.A1 = b1
  generalize algebraMap F R b.A2 = b2
  generalize algebraMap F R b.A3 = b3
  generalize algebraMap F R b.A4 = b4
  generalize algebraMap F R b.A5 = b5
  linear_combination
    (-(a1 * b5 + a2 * b4 + a3 * b3 + a4 * b2 + a5 * b1)
      - (a2 * b5 + a3 * b4 + a4 * b3 + a5 * b2) * v
      - (a3 * b5 + a4 * b4 + a5 * b3) * v ^ 2
      - (a4 * b5 + a5 * b4) * v ^ 3
      - (a5 * b5) * v ^ 4) * hv

/-- C7: for every `z`, `c0`, `c1`, `MulBy023 z c0 c1` is the product in
`E6 = Fp[v]/(v^6 + 4)` of `z` and the sparse element
`E6{A0: c0, A1: 0, A2: c1, A3: 1, A4: 0, A5: 0}`. -/
theorem C7_MulBy023_eq_mul {F : Type} [CommRing F] (z : E6 F) (c0 c1 : F) :
    MulBy023 z c0 c1 = E6.mul z { A0 := c0, A1 := 0, A2 := c1, A3 := 1, A4 := 0, A5 := 0 } := by
  ext <;> simp [MulBy023, mulBy023Direct, Eval, E6.mul] <;> ring

/-- C8: for every `z` and `y0..y4`, `MulBy02345 z [y0, y1, y2, y3, y4]` is the product in
`E6 = Fp[v]/(v^6 + 4)` of `z` and the sparse element
`E6{A0: y0, A1: 0, A2: y1, A3: y2, A4: y3, A5: y4}`. -/
theorem C8_MulBy02345_eq_mul {F : Type} [CommRing F] (z : E6 F) (y0 y1 y2 y3 y4 : F) :
    MulBy02345 z ![y0, y1, y2, y3, y4]
      = E6.mul z { A0 := y0, A1 := 0, A2 := y1, A3 := y2, A4 := y3, A5 := y4 } := by
  ext <;> simp [MulBy02345, mulBy02345Direct, Eval, E6.mul] <;> ring

/-- C9: for every `d0`, `d1`, `c0`, `c1`, the five coefficients `[y0, y1, y2, y3, y4]` that
`Mul023By023 d0 d1 c0 c1` returns make `E6{A0: y0, A1: 0, A2: y1, A3: y2, A4: y3, A5: y4}`
the product in `E6 = Fp[v]/(v^6 + 4)` of `E6{A0: d0, A1: 0, A2: d1, A3: 1, A4: 0, A5: 0}`
and `E6{A0: c0, A1: 0, A2: c1, A3: 1, A4: 0, A5: 0}`; the `A1` coefficient of that
product is zero. -/
theorem C9_Mul023By023_eq_mul {F : Type} [CommRing F] (d0 d1 c0 c1 : F) :
    ({ A0 := Mul023By023 d0 d1 c0 c1 0, A1 := 0, A2 := Mul023By023 d0 d1 c0 c1 1,
       A3 := Mul023By023 d0 d1 c0 c1 2, A4 := Mul023By023 d0 d1 c0 c1 3,
       A5 := Mul023By023 d0 d1 c0 c1 4 } : E6 F)
      = E6.mul { A0 := d0, A1 := 0, A2 := d1, A3 := 1, A4 := 0, A5 := 0 }
          { A0 := c0, A1 := 0, A2 := c1, A3 := 1, A4 := 0, A5 := 0 } ∧
    (E6.mul ({ A0 := d0, A1 := 0, A2 := d1, A3 := 1, A4 := 0, A5 := 0 } : E6 F)
          { A0 := c0, A1 := 0, A2 := c1, A3 := 1, A4 := 0, A5 := 0 }).A1 = 0 := by
  constructor
  · ext <;> simp [Mul023By023, mul023by023Direct, Eval, E6.mul]
  · simp [E6.mul]

/-- The methods of `monoidOps` are exact. -/
theorem monoidOps_exact (G : Type) [Monoid G] : (monoidOps G).Exact :=
  ⟨fun _ => rfl, fun _ => rfl, fun _ _ => rfl, fun _ => rfl, fun _ => rfl, fun _ => rfl⟩

/-- With exact methods the loop of `n` Karabina squarings raises to the power `2^n`. -/
theorem nSquareLoop_eq_pow {G : Type} [Monoid G] (e : Ext6Ops G) (he : e.Exact) (n : ℕ) (z : G) :
    nSquareLoop e n z = z ^ (2 ^ n) := by
  induction n generalizing z with
  | zero => simp [nSquareLoop]
  | succ k ih =>
    rw [nSquareLoop, ih, he.squareKarabina, ← pow_two, ← pow_mul, pow_succ, mul_comm]

/-- With exact methods `nSquareKarabina12345 e z n` is `z ^ (2 ^ n)`. -/
theorem nSquareKarabina12345_eq_pow {G : Type} [Monoid G] (e : Ext6Ops G) (he : e.Exact)
    (z : G) (n : ℕ) : nSquareKarabina12345 e z n = z ^ (2 ^ n) := by
  simp only [nSquareKarabina12345, he.decompress, nSquareLoop_eq_pow e he]

/-- C10: `ExpX0Minus1 z = z ^ (x₀ - 1)` with `x₀ - 1 = 9586122913090633728`, for every `z`
of the cyclotomic subgroup `G`, when `CyclotomicSquareGS` and each Karabina squaring
compute the square, `Mul` is the multiplication of the group, and `Reduce`, `Copy`
and `DecompressKarabina12345` keep the value. -/
theorem C10_ExpX0Minus1_eq_pow {G : Type} [Monoid G] (e : Ext6Ops G) (he : e.Exact) (z : G) :
    ExpX0Minus1 e z = z ^ 9586122913090633728 := by
  simp only [ExpX0Minus1, nSquareKarabina12345_eq_pow e he, he.reduce, he.copy, he.mul,
    he.squareGS]
  simp only [← pow_two, ← pow_mul, ← pow_succ, ← pow_add]
  norm_num

theorem C10_ExpX0Minus1_eq_pow_witness :
    ExpX0Minus1 (monoidOps (ZMod 7)) 3 = 3 ^ 9586122913090633728 :=
  C10_ExpX0Minus1_eq_pow (monoidOps (ZMod 7)) (monoidOps_exact (ZMod 7)) 3

/-- C11: `ExpX0Minus1Square z = z ^ ((x₀ - 1)²)` with
`(x₀ - 1)² = 91893752504881257682351033800651177984`, for every `z` of the cyclotomic
subgroup `G`, when the squarings square, `Mul` multiplies, and `Reduce`, `Copy` and the
decompression keep the value. -/
theorem C11_ExpX0Minus1Square_eq_pow {G : Type} [Monoid G] (e : Ext6Ops G) (he : e.Exact)
    (z : G) : ExpX0Minus1Square e z = z ^ 91893752504881257682351033800651177984 := by
  simp only [ExpX0Minus1Square, nSquareKarabina12345_eq_pow e he, he.reduce, he.copy, he.mul,
    he.squareGS]
  simp only [← pow_two, ← pow_mul, ← pow_succ, ← pow_succ', ← pow_add]
  norm_num

theorem C11_ExpX0Minus1Square_eq_pow_witness :
    ExpX0Minus1Square (monoidOps (ZMod 7)) 3 = 3 ^ 91893752504881257682351033800651177984 :=
  C11_ExpX0Minus1Square_eq_pow (monoidOps (ZMod 7)) (monoidOps_exact (ZMod 7)) 3

/-- C12: `ExpX0Plus1 z = z ^ (x₀ + 1)` with `x₀ + 1 = 9586122913090633730`, for every `z`
of the cyclotomic subgroup `G`, when the squarings square, `Mul` multiplies, and
`Reduce`, `Copy` and the decompression keep the value. -/
theorem C12_ExpX0Plus1_eq_pow {G : Type} [Monoid G] (e : Ext6Ops G) (he : e.Exact) (z : G) :
    ExpX0Plus1 e z = z ^ 9586122913090633730 := by
  simp only [ExpX0Plus1, nSquareKarabina12345_eq_pow e he, he.reduce, he.copy, he.mul,
    he.squareGS]
  simp only [← pow_two, ← pow_mul, ← pow_succ, ← pow_succ', ← pow_add]
  norm_num

theorem C12_ExpX0Plus1_eq_pow_witness :
    ExpX0Plus1 (monoidOps (ZMod 11)) 2 = 2 ^ 9586122913090633730 :=
  C12_ExpX0Plus1_eq_pow (monoidOps (ZMod 11)) (monoidOps_exact (ZMod 11)) 2

/-- C13: `ExptMinus1Div3 z = z ^ ((x₀ - 1) / 3)` with `(x₀ - 1) / 3 = 3195374304363544576`
(and `3 * 3195374304363544576 = 9586122913090633728 = x₀ - 1`), for every `z` of the
cyclotomic subgroup `G`, when the squarings square, `Mul` multiplies, and `Reduce`,
`Copy` and the decompression keep the value. -/
theorem C13_ExptMinus1Div3_eq_pow {G : Type} [Monoid G] (e : Ext6Ops G) (he : e.Exact)
    (z : G) :
    ExptMinus1Div3 e z = z ^ 3195374304363544576 ∧
    ExptMinus1Div3 e z = z ^ (9586122913090633728 / 3) := by
  have h : ExptMinus1Div3 e z = z ^ 3195374304363544576 := by
    simp only [ExptMinus1Div3, nSquareKarabina12345_eq_pow e he, he.reduce, he.copy, he.mul,
      he.squareGS]
    simp only [← pow_two, ← pow_mul, ← pow_succ, ← pow_succ', ← pow_add]
    norm_num
  refine ⟨h, ?_⟩
  rw [h]

theorem C13_ExptMinus1Div3_eq_pow_witness :
    ExptMinus1Div3 (monoidOps (ZMod 13)) 2 = 2 ^ 3195374304363544576 ∧
    ExptMinus1Div3 (monoidOps (ZMod 13)) 2 = 2 ^ (9586122913090633728 / 3) :=
  C13_ExptMinus1Div3_eq_pow (monoidOps (ZMod 13)) (monoidOps_exact (ZMod 13)) 2

/-- C14: `ExpByU1 x = x ^ (x₀^3 - x₀^2 + 1)` with
`x₀^3 - x₀^2 + 1 = 880904806456922042166256752416502360965158762994674434049`
(`x₀ = 9586122913090633729`), for every `x` of the cyclotomic subgroup `G`, when the
squarings square, `Mul` multiplies, and the decompression keeps the value. -/
theorem C14_ExpByU1_eq_pow {G : Type} [Monoid G] (e : Ext6Ops G) (he : e.Exact) (x : G) :
    ExpByU1 e x = x ^ 880904806456922042166256752416502360965158762994674434049 ∧
    ExpByU1 e x = x ^ (9586122913090633729 ^ 3 - 9586122913090633729 ^ 2 + 1) := by
  have h : ExpByU1 e x = x ^ 880904806456922042166256752416502360965158762994674434049 := by
    simp only [ExpByU1, nSquareKarabina12345_eq_pow e he, he.mul, he.squareGS]
    simp only [← pow_two, ← pow_mul, ← pow_succ, ← pow_succ', ← pow_add]
    norm_num
  refine ⟨h, ?_⟩
  rw [h]
  norm_num

theorem C14_ExpByU1_eq_pow_witness :
    ExpByU1 (monoidOps (ZMod 17)) 3
      = 3 ^ 880904806456922042166256752416502360965158762994674434049 ∧
    ExpByU1 (monoidOps (ZMod 17)) 3
      = 3 ^ (9586122913090633729 ^ 3 - 9586122913090633729 ^ 2 + 1) :=
  C14_ExpByU1_eq_pow (monoidOps (ZMod 17)) (monoidOps_exact (ZMod 17)) 3

/-- The bodies of `ExpByU2` and `ExpX0Plus1` are the same, statement by statement, so
they agree on every input whatever the methods of `Ext6` compute. -/
theorem ExpByU2_eq_ExpX0Plus1 {G : Type} (e : Ext6Ops G) (z : G) :
    ExpByU2 e z = ExpX0Plus1 e z := rfl

/-- C15: `ExpByU2 z = z ^ (x₀ + 1)` with `x₀ + 1 = 9586122913090633730`, for every `z` of
the cyclotomic subgroup `G`, when the squarings square, `Mul` multiplies, and `Reduce`,
`Copy` and the decompression keep the value; hence `ExpByU2` and `ExpX0Plus1` return
the same value on every input. -/
theorem C15_ExpByU2_eq_pow {G : Type} [Monoid G] (e : Ext6Ops G) (he : e.Exact) (z : G) :
    ExpByU2 e z = z ^ 9586122913090633730 ∧ ExpByU2 e z = ExpX0Plus1 e z := by
  have h : ExpByU2 e z = z ^ 9586122913090633730 := by
    simp only [ExpByU2, nSquareKarabina12345_eq_pow e he, he.reduce, he.copy, he.mul,
      he.squareGS]
    simp only [← pow_two, ← pow_mul, ← pow_succ, ← pow_succ', ← pow_add]
    norm_num
  have h2 : ExpX0Plus1 e z = z ^ 9586122913090633730 := by
    simp only [ExpX0Plus1, nSquareKarabina12345_eq_pow e he, he.reduce, he.copy, he.mul,
      he.squareGS]
    simp only [← pow_two, ← pow_mul, ← pow_succ, ← pow_succ', ← pow_add]
    norm_num
  exact ⟨h, h.trans h2.symm⟩

theorem C15_ExpByU2_eq_pow_witness :
    ExpByU2 (monoidOps (ZMod 19)) 2 = 2 ^ 9586122913090633730 ∧
    ExpByU2 (monoidOps (ZMod 19)) 2 = ExpX0Plus1 (monoidOps (ZMod 19)) 2 :=
  C15_ExpByU2_eq_pow (monoidOps (ZMod 19)) (monoidOps_exact (ZMod 19)) 2

end FieldsBW6761

end Gnark

namespace Gnark

namespace Frontend

/-- A revalidation that succeeds returns the assignment it was given, and every
constraint holds under it. -/
theorem revalidateConstraints_ok {p : ℕ} (cs : List (Constraint p)) (index : ℕ)
    (w w1 : Assignment p) (h : revalidateConstraints cs index w = Except.ok w1) :
    w1 = w ∧ ∀ c ∈ cs, c.holds w = true := by
  induction cs generalizing index with
  | nil =>
    simp only [revalidateConstraints, Except.ok.injEq] at h
    exact ⟨h.symm, by simp⟩
  | cons c rest ih =>
    simp only [revalidateConstraints] at h
    split at h
    · next hc =>
      obtain ⟨h1, h2⟩ := ih (index + 1) h
      refine ⟨h1, ?_⟩
      intro d hd
      rcases List.mem_cons.mp hd with rfl | hd
      · exact hc
      · exact h2 d hd
    · exact absurd h (by simp)

/-- When every constraint holds, the revalidation reports no violation. -/
theorem revalidateConstraints_of_holds {p : ℕ} (cs : List (Constraint p)) (index : ℕ)
    (w : Assignment p) (h : ∀ c ∈ cs, c.holds w = true) :
    revalidateConstraints cs index w = Except.ok w := by
  induction cs generalizing index with
  | nil => rfl
  | cons c rest ih =>
    simp only [revalidateConstraints, h c (List.mem_cons_self c rest), if_true]
    exact ih (index + 1) (fun d hd => h d (List.mem_cons_of_mem c hd))

/-- An assignment the loop of the Solver returns is complete and has passed the
revalidation of step 4. -/
theorem solveSystemLoop_ok {p : ℕ} (reg : HintRegistry p) (sys : CompiledSystem p) (fuel : ℕ)
    (w0 w : Assignment p) (h : solveSystemLoop reg sys fuel w0 = Except.ok w) :
    w.all (fun v => v.isSome) = true ∧ ∀ c ∈ sys.constraints, c.holds w = true := by
  induction fuel generalizing w0 with
  | zero => simp [solveSystemLoop] at h
  | succ n ih =>
    simp only [solveSystemLoop] at h
    split at h
    · exact absurd h (by simp)
    · split at h
      · exact absurd h (by simp)
      · next w2 _ =>
        split at h
        · next hall =>
          obtain ⟨h1, h2⟩ := revalidateConstraints_ok sys.constraints 0 w2 w h
          subst h1
          exact ⟨hall, h2⟩
        · split at h
          · exact absurd h (by simp)
          · exact ih w2 h

/-- On rank-1 triples the scan of the general Solver is the rank-1 scan. -/
theorem scanConstraints_rank1 {p : ℕ} (cs : List (R1C p)) (index : ℕ) (w : Assignment p) :
    scanConstraints (cs.map Constraint.rank1) index w = scan cs index w := by
  induction cs generalizing index w with
  | nil => rfl
  | cons c rest ih =>
    simp only [List.map, scanConstraints, scan, Constraint.step]
    cases c.step index w with
    | error e => rfl
    | ok w1 => exact ih (index + 1) w1

/-- On rank-1 triples the revalidation of the general Solver is the rank-1 one. -/
theorem revalidateConstraints_rank1 {p : ℕ} (cs : List (R1C p)) (index : ℕ)
    (w : Assignment p) :
    revalidateConstraints (cs.map Constraint.rank1) index w = revalidate cs index w := by
  induction cs generalizing index with
  | nil => rfl
  | cons c rest ih =>
    simp only [List.map, revalidateConstraints, revalidate, Constraint.holds, ih]

/-- The rank-1 Solver is the general Solver on a system without hints. -/
theorem solveLoop_eq_solveSystemLoop {p : ℕ} (reg : HintRegistry p) (cs : ConstraintSystem p)
    (fuel : ℕ) (w : Assignment p) :
    solveSystemLoop reg cs.toCompiled fuel w = solveLoop cs.constraints fuel w := by
  induction fuel generalizing w with
  | zero => rfl
  | succ n ih =>
    simp only [solveSystemLoop, solveLoop, ConstraintSystem.toCompiled, scanConstraints_rank1,
      revalidateConstraints_rank1]
    cases scan cs.constraints 0 w with
    | error e => rfl
    | ok w1 =>
      simp only [runHints]
      split
      · rfl
      · split
        · rfl
        · exact ih w1

/-- The rank-1 Solver `solve` is the general Solver on the same system, without hints. -/
theorem solve_eq_solveSystem {p : ℕ} (reg : HintRegistry p) (cs : ConstraintSystem p)
    (pub sec : List (ZMod p)) :
    solve cs pub sec = solveSystem reg cs.toCompiled pub sec := by
  simp only [solve, solveSystem]
  have hr : cs.toCompiled.roles = cs.roles := rfl
  rw [hr]
  cases seed cs.roles pub sec 0 with
  | error e => rfl
  | ok w => exact (solveLoop_eq_solveSystemLoop reg cs (cs.roles.length + 1) w).symm

/-- C17: soundness of solving. For every constraint system (rank-1 triples, gates, hint
bindings) and every assignment the Solver returns as solved, every variable has a
value, every constraint holds under the assignment, and re-evaluating every constraint
against it reports no violation; the same holds of the rank-1 Solver `solve`. -/
theorem C17_solver_sound {p : ℕ} (reg : HintRegistry p) (sys : CompiledSystem p)
    (pub sec : List (ZMod p)) (w : Assignment p)
    (h : solveSystem reg sys pub sec = Except.ok w) :
    revalidateConstraints sys.constraints 0 w = Except.ok w ∧
    (∀ c ∈ sys.constraints, c.holds w = true) ∧
    w.all (fun v => v.isSome) = true ∧
    (∀ (cs : ConstraintSystem p) (pub1 sec1 : List (ZMod p)) (w1 : Assignment p),
      solve cs pub1 sec1 = Except.ok w1 →
      cs.SatisfiedBy w1 ∧ revalidate cs.constraints 0 w1 = Except.ok w1) := by
  have key : ∀ (sys1 : CompiledSystem p) (pub1 sec1 : List (ZMod p)) (w1 : Assignment p),
      solveSystem reg sys1 pub1 sec1 = Except.ok w1 →
      w1.all (fun v => v.isSome) = true ∧ ∀ c ∈ sys1.constraints, c.holds w1 = true := by
    intro sys1 pub1 sec1 w1 h1
    simp only [solveSystem] at h1
    split at h1
    · exact absurd h1 (by simp)
    · next w0 _ => exact solveSystemLoop_ok reg sys1 _ w0 w1 h1
  obtain ⟨hall, hc⟩ := key sys pub sec w h
  refine ⟨revalidateConstraints_of_holds _ 0 w hc, hc, hall, ?_⟩
  intro cs pub1 sec1 w1 h1
  rw [solve_eq_solveSystem reg] at h1
  obtain ⟨_, hc1⟩ := key cs.toCompiled pub1 sec1 w1 h1
  have hsat : cs.SatisfiedBy w1 := by
    intro c hmem
    exact hc1 (Constraint.rank1 c) (List.mem_map_of_mem Constraint.rank1 hmem)
  refine ⟨hsat, ?_⟩
  rw [← revalidateConstraints_rank1]
  exact revalidateConstraints_of_holds _ 0 w1 hc1

theorem C17_solver_sound_witness :
    revalidateConstraints sqrtSystem.constraints 0 [some 2, some 3]
      = Except.ok [some 2, some 3] ∧
    (∀ c ∈ sqrtSystem.constraints, c.holds [some 2, some 3] = true) ∧
    ([some 2, some 3] : Assignment 7).all (fun v => v.isSome) = true ∧
    (∀ (cs : ConstraintSystem 7) (pub1 sec1 : List (ZMod 7)) (w1 : Assignment 7),
      solve cs pub1 sec1 = Except.ok w1 →
      cs.SatisfiedBy w1 ∧ revalidate cs.constraints 0 w1 = Except.ok w1) :=
  C17_solver_sound sqrtRegistry sqrtSystem [2] [] [some 2, some 3] (by decide)

end Frontend

end Gnark
